import Mathlib

/-!
Verification of the short-link engine of the `linkshortener` repository.

The engine's concrete code lives in the repository's agent-instructions
document (`src/unnamed/part_002`) as TypeScript: the Drizzle `links` schema
(lines 315-326), the `createLink` server action (223-256), the
Result-returning `createLink` (564-587), `validateUrl` (623-630),
`isValidShortCode` (632-634), `deleteLink` (641-658), the atomic click
increment (346-349) and the constant `DEFAULT_SHORT_CODE_LENGTH = 6`
(line 688).  The redirect resolver, the code generator and `updateLink`
are described by the specification only and are modelled from it below,
each marked `Modelled from the spec:`.

Timestamps are modelled as `Nat`, the database table as a list of rows,
and the random source of the code generator as an explicit function
argument.
-/

/-- A row of the `links` table (schema, part_002 lines 315-326).
`clicks` defaults to 0, `isActive` to true; `expiresAt` is nullable. -/
structure Link where
  id : Nat
  shortCode : String
  originalUrl : String
  userId : String
  title : Option String
  clicks : Nat
  isActive : Bool
  expiresAt : Option Nat
  createdAt : Nat
  updatedAt : Nat
deriving DecidableEq

/-- The database state: the rows of the `links` table plus the next value
of the `serial` primary key. -/
structure DB where
  rows : List Link
  nextId : Nat
deriving DecidableEq

/-- The `Result<T>` union type of the source (part_002 line 111):
`{ success: true; data: T } | { success: false; error: string }`. -/
inductive Result (α : Type) where
  | success (data : α)
  | failure (error : String)
deriving DecidableEq

/-- Errors raised by the storage layer: the unique-constraint violation on
`short_code`. -/
inductive DBError where
  | Conflict
deriving DecidableEq

/-- Characters allowed after the first character of a URL scheme. -/
def isSchemeChar (c : Char) : Bool :=
  c.isAlphanum || c == '+' || c == '-' || c == '.'

/-- Split a character list at its first colon: `some (before, after)`,
or `none` when no colon occurs. -/
def splitScheme : List Char → Option (List Char × List Char)
  | [] => none
  | c :: cs =>
    if c == ':' then some ([], cs)
    else
      match splitScheme cs with
      | some (pre, post) => some (c :: pre, post)
      | none => none

/-- A C0 control character or the space character — what the WHATWG URL
parser trims from both ends of its input. -/
def isC0OrSpace (c : Char) : Bool :=
  c.val ≤ 0x20

/-- ASCII tab or newline — removed everywhere by the WHATWG URL parser. -/
def isTabOrNewline (c : Char) : Bool :=
  c == '\t' || c == '\n' || c == '\r'

/-- The WHATWG input preprocessing: strip leading and trailing C0 controls
and spaces, then remove every tab and newline. -/
def urlPreprocess (s : String) : List Char :=
  (((s.toList.dropWhile isC0OrSpace).reverse.dropWhile
      isC0OrSpace).reverse).filter (fun c => !isTabOrNewline c)

/-- The WHATWG forbidden domain code points: C0 controls, DEL, space, and
`# / : < > ? @ [ \ ] ^ | %` — a special-scheme host containing one makes
`new URL` throw. -/
def isForbiddenDomainChar (c : Char) : Bool :=
  c.val ≤ 0x1F || c.val == 0x7F || c == ' ' || c == '#' || c == '/' ||
    c == ':' || c == '<' || c == '>' || c == '?' || c == '@' ||
    c == '[' || c == '\\' || c == ']' || c == '^' || c == '|' || c == '%'

/-- An ASCII hexadecimal digit. -/
def isHexDigitChar (c : Char) : Bool :=
  c.isDigit || ('a' ≤ c && c ≤ 'f') || ('A' ≤ c && c ≤ 'F')

/-- Validate the host-and-optional-port part of a special-scheme
authority, after userinfo removal: the host must be non-empty and free of
forbidden domain code points (or a closed `[...]` IPv6 bracket of
hex-digit/colon/dot shape), and an explicit port must be ASCII digits. -/
def validHostPort : List Char → Bool
  | [] => false
  | '[' :: rest =>
    match rest.dropWhile (fun c => !(c == ']')) with
    | [] => false
    | _ :: portPart =>
      (rest.takeWhile (fun c => !(c == ']'))).all
        (fun c => isHexDigitChar c || c == ':' || c == '.') &&
      (rest.takeWhile (fun c => !(c == ']'))).contains ':' &&
      (match portPart with
       | [] => true
       | ':' :: port => port.all Char.isDigit
       | _ => false)
  | hp =>
    !(hp.takeWhile (fun c => !(c == ':'))).isEmpty &&
    (hp.takeWhile (fun c => !(c == ':'))).all
      (fun c => !isForbiddenDomainChar c) &&
    (match hp.dropWhile (fun c => !(c == ':')) with
     | [] => true
     | _ :: port => port.all Char.isDigit)

/-- The WHATWG special schemes other than `file`: for these an absolute
URL must carry a non-empty valid host or `new URL` throws. -/
def specialHostSchemes : List String := ["ftp", "http", "https", "ws", "wss"]

/-- Model of the JavaScript `new URL` constructor reduced to the decision
the source consults: does the input parse, and with which `protocol`
(lowercased scheme plus `":"`).  Modelled after the WHATWG parser: the
input is preprocessed (`urlPreprocess`), the scheme must be an ASCII
letter followed by letters, digits, `+`, `-`, `.` and a colon; for the
special schemes `http`, `https`, `ws`, `wss`, `ftp` the authority is then
required — leading slashes and backslashes are skipped, the authority
runs to the next `/ \ ? #`, userinfo up to the last `@` is dropped, and
`validHostPort` must accept the remainder (so `"http:"` and `"http://"`
fail while `" https://ok.example"` parses).  `file:` and non-special
schemes parse without a host requirement.  Model scope: IPv4 range
checking and IDNA/percent-decoding of exotic hosts are not modelled, and
non-special-scheme inputs always parse; none of this can change
`validateUrl`'s verdict, which only asks whether the protocol is `http:`
or `https:` — any input whose scheme is not http/https yields `false`
whether or not it parses. -/
def parseProtocol (s : String) : Option String :=
  match splitScheme (urlPreprocess s) with
  | none => none
  | some ([], _) => none
  | some (c :: cs, after) =>
    if c.isAlpha && cs.all isSchemeChar then
      let scheme := String.mk ((c :: cs).map Char.toLower)
      if specialHostSchemes.contains scheme then
        if validHostPort
            (((((after.dropWhile (fun x => x == '/' || x == '\\')).takeWhile
                (fun x => !(x == '/' || x == '\\' || x == '?' ||
                  x == '#'))).reverse.takeWhile
                (fun x => !(x == '@'))).reverse)) then
          some (scheme ++ ":")
        else none
      else some (scheme ++ ":")
    else none

/-- `validateUrl` (part_002 lines 623-630): parse the URL and accept only
the protocols `http:` and `https:`; a parse failure yields `false`. -/
def validateUrl (url : String) : Bool :=
  match parseProtocol url with
  | some p => ["http:", "https:"].contains p
  | none => false

/-- `isValidShortCode` (part_002 lines 632-634): the regular expression
test `/^[a-zA-Z0-9_-]{4,10}$/.test(code)`. -/
def isValidShortCode (code : String) : Bool :=
  decide (4 ≤ code.length) && decide (code.length ≤ 10) &&
    code.toList.all (fun c => c.isAlphanum || c == '_' || c == '-')

/-- `db.insert(links).values({ shortCode, originalUrl, userId }).returning()`
(part_002 lines 240-247 and 571-574): the storage layer enforces the
unique constraint on `short_code` and fails with `Conflict` when the code
already exists; otherwise the new row is persisted with the schema
defaults `clicks = 0`, `isActive = true`, `expiresAt = null`. -/
def insertLink (db : DB) (code url owner : String) (now : Nat) :
    Except DBError (Link × DB) :=
  if db.rows.any (fun l => l.shortCode == code) then
    .error .Conflict
  else
    let link : Link :=
      { id := db.nextId, shortCode := code, originalUrl := url,
        userId := owner, title := none, clicks := 0, isActive := true,
        expiresAt := none, createdAt := now, updatedAt := now }
    .ok (link, { rows := link :: db.rows, nextId := db.nextId + 1 })

/-- The `createLink` server action (part_002 lines 223-256): require an
authenticated caller, validate the URL, then attempt a single insert with
one generated candidate code (`gen 0` models the one call to
`generateShortCode()`); any storage error is caught and reported as
`"Failed to create link"`.  There is no retry. -/
def createLink (auth : Option String) (url : String) (gen : Nat → String)
    (db : DB) (now : Nat) : Result Link × DB :=
  match auth with
  | none => (.failure "Unauthorized", db)
  | some userId =>
    if url == "" || !(validateUrl url) then (.failure "Invalid URL", db)
    else
      match insertLink db (gen 0) url userId now with
      | .ok (link, db') => (.success link, db')
      | .error .Conflict => (.failure "Failed to create link", db)

/-- The Result-returning `createLink` (part_002 lines 564-587): validate,
attempt a single insert, and map a unique-constraint violation to the
caller-visible failure `"Short code already exists"`.  There is no retry. -/
def createLinkR (url userId : String) (gen : Nat → String) (db : DB)
    (now : Nat) : Result Link × DB :=
  if !(validateUrl url) then (.failure "Invalid URL format", db)
  else
    match insertLink db (gen 0) url userId now with
    | .ok (link, db') => (.success link, db')
    | .error .Conflict => (.failure "Short code already exists", db)

/-- `deleteLink` (part_002 lines 641-658): first a `select ... where
id = linkId and user_id = userId limit 1`; when no row is found, throw
`"Link not found or unauthorized"`; otherwise a second, separate
`delete ... where id = linkId` whose predicate carries no owner. -/
def deleteLink (db : DB) (linkId : Nat) (userId : String) :
    Except String Unit × DB :=
  if db.rows.any (fun l => l.id == linkId && l.userId == userId) then
    (.ok (), { db with rows := db.rows.filter (fun l => !(l.id == linkId)) })
  else
    (.error "Link not found or unauthorized", db)

/-- A storage-layer operation, recording the predicate it filters by:
a row id and an optional owner condition. -/
inductive StorageOp where
  | select (linkId : Nat) (owner : Option String)
  | delete (linkId : Nat) (owner : Option String)
deriving DecidableEq

/-- The sequence of storage operations `deleteLink` (part_002 lines
641-658) issues: always the owner-scoped `select` first and, only when it
finds a row, a second `delete` filtered by id alone. -/
def deleteLinkOps (db : DB) (linkId : Nat) (userId : String) :
    List StorageOp :=
  if db.rows.any (fun l => l.id == linkId && l.userId == userId) then
    [.select linkId (some userId), .delete linkId none]
  else
    [.select linkId (some userId)]

/-- `deleteLink` with an arbitrary state change `f` interleaved between
its two storage operations, modelling a concurrent actor running at the
suspension point between the ownership check and the mutation. -/
def deleteLinkInterleaved (db : DB) (linkId : Nat) (userId : String)
    (f : DB → DB) : Except String Unit × DB :=
  if db.rows.any (fun l => l.id == linkId && l.userId == userId) then
    (.ok (), { f db with
               rows := (f db).rows.filter (fun l => !(l.id == linkId)) })
  else
    (.error "Link not found or unauthorized", db)

/-- The atomic click increment (part_002 lines 346-349):
`update(links).set({ clicks: sql(clicks + 1) }).where(eq(links.id, linkId))`
— a single storage operation adding 1 to every row matching the id. -/
def incrementClicks (db : DB) (linkId : Nat) : DB :=
  { db with rows := db.rows.map (fun l =>
      if l.id == linkId then { l with clicks := l.clicks + 1 } else l) }

/-- A patch accepted by `updateByOwner`: the owner-mutable fields of the
data model; `none` leaves a field unchanged.  `shortCode`, `id` and
`userId` are immutable and have no patch entry. -/
structure LinkPatch where
  originalUrl : Option String
  title : Option (Option String)
  isActive : Option Bool
  expiresAt : Option (Option Nat)
deriving DecidableEq

/-- Apply a patch to a row, updating `updatedAt`. -/
def applyPatch (l : Link) (p : LinkPatch) (now : Nat) : Link :=
  { l with
    originalUrl := p.originalUrl.getD l.originalUrl,
    title := p.title.getD l.title,
    isActive := p.isActive.getD l.isActive,
    expiresAt := p.expiresAt.getD l.expiresAt,
    updatedAt := now }

/-- Modelled from the spec: `updateByOwner(id, ownerId, patch)` of the
Link Repository (spec section 4.2); `updateLink` itself is absent from the
source.  A single conditional storage operation whose predicate combines
the existence check and the ownership check; when no row matches, it
fails with `NotFoundOrUnauthorized` and changes nothing. -/
def updateByOwner (db : DB) (linkId : Nat) (owner : String)
    (p : LinkPatch) (now : Nat) : Except String Link × DB :=
  match db.rows.find? (fun l => l.id == linkId && l.userId == owner) with
  | none => (.error "NotFoundOrUnauthorized", db)
  | some l =>
    (.ok (applyPatch l p now),
     { db with rows := db.rows.map (fun r =>
         if r.id == linkId && r.userId == owner then applyPatch r p now
         else r) })

/-- The typed outcome of a resolution (spec sections 4.4 and 7). -/
inductive ResolveResult where
  | destination (url : String)
  | notFound
  | deactivated
  | expired
deriving DecidableEq

/-- Modelled from the spec: the Redirect Resolver's `resolve(code)` (spec
section 4.4); the resolver is absent from the source.  Look the code up;
fail `notFound` when absent, `deactivated` when `isActive` is false,
`expired` when `expiresAt` is present and `<= now` (inclusive boundary);
otherwise record the click through the atomic increment and return the
original URL. -/
def resolve (db : DB) (code : String) (now : Nat) : ResolveResult × DB :=
  match db.rows.find? (fun l => l.shortCode == code) with
  | none => (.notFound, db)
  | some l =>
    if !l.isActive then (.deactivated, db)
    else
      match l.expiresAt with
      | some t =>
        if t ≤ now then (.expired, db)
        else (.destination l.originalUrl, incrementClicks db l.id)
      | none => (.destination l.originalUrl, incrementClicks db l.id)

/-- `DEFAULT_SHORT_CODE_LENGTH` (part_002 line 688). -/
def DEFAULT_SHORT_CODE_LENGTH : Nat := 6

/-- The 62-character generator alphabet: mixed-case letters and digits
(spec section 4.1). -/
def ALPHABET : String :=
  "ABCDEFGHIJKLMNOPQRSTUVWXYZabcdefghijklmnopqrstuvwxyz0123456789"

/-- The generator alphabet as a character list. -/
def alphaChars : List Char := ALPHABET.toList

/-- Modelled from the spec: the Code Generator's `generate()` (spec
section 4.1); the generator is absent from the source.  Produce a code of
the configured length by drawing each character from the fixed 62-element
alphabet; the random source is modelled as the explicit function `rand`
giving the raw draw for each position. -/
def generate (len : Nat) (rand : Nat → Nat) : String :=
  String.mk ((List.range len).map (fun i => alphaChars.getD (rand i % 62) 'A'))

/-- The `createLink` server action composed with the code generator at the
default length: `gen attempt` is `generate()` run on the random draws the
source would make for that attempt. -/
def createLinkGen (auth : Option String) (url : String)
    (rand : Nat → Nat → Nat) (db : DB) (now : Nat) : Result Link × DB :=
  createLink auth url
    (fun attempt => generate DEFAULT_SHORT_CODE_LENGTH (rand attempt)) db now

/-- An atomic click operation destined for the storage engine. -/
inductive ClickOp where
  | incr (linkId : Nat)
deriving DecidableEq

/-- Execute one atomic click operation. -/
def applyOp (db : DB) : ClickOp → DB
  | .incr i => incrementClicks db i

/-- Execute a schedule of atomic click operations in order; an arbitrary
interleaving of concurrent redirects is some such schedule. -/
def applyOps (db : DB) (ops : List ClickOp) : DB :=
  ops.foldl applyOp db

/-- The click count stored for a row id (0 when the row is absent). -/
def clicksOf (db : DB) (i : Nat) : Nat :=
  ((db.rows.find? (fun l => l.id == i)).map Link.clicks).getD 0

/-- The shortCodes currently stored. -/
def codes (db : DB) : List String := db.rows.map Link.shortCode

/-- The id-to-shortCode assignment currently stored. -/
def idCodes (db : DB) : List (Nat × String) :=
  db.rows.map (fun l => (l.id, l.shortCode))

/-- The shortCode invariant (spec section 3): every stored code matches
`isValidShortCode` and the stored codes are pairwise distinct. -/
def DBInv (db : DB) : Prop :=
  (∀ c ∈ codes db, isValidShortCode c = true) ∧ (codes db).Nodup

instance (db : DB) : Decidable (DBInv db) := by
  unfold DBInv; infer_instance

/-- The empty store. -/
def db0 : DB := { rows := [], nextId := 1 }

/-- A store holding one link, code `"abc123"`, owned by `"alice"`. -/
def db1 : DB :=
  { rows := [{ id := 1, shortCode := "abc123",
               originalUrl := "https://a.example", userId := "alice",
               title := none, clicks := 0, isActive := true,
               expiresAt := none, createdAt := 0, updatedAt := 0 }],
    nextId := 2 }

/-- A generator stream whose first candidate collides with `db1` and whose
second candidate is fresh. -/
def gen1 : Nat → String := fun n => if n == 0 then "abc123" else "zzzz99"

/-- A random source drawing 0 everywhere: `generate` yields `"AAAAAA"`. -/
def rand0 : Nat → Nat → Nat := fun _ _ => 0

/-- The row `createLinkGen (some "alice") "https://example.com/page" rand0
db0 5` inserts. -/
def L6 : Link :=
  { id := 1, shortCode := "AAAAAA",
    originalUrl := "https://example.com/page", userId := "alice",
    title := none, clicks := 0, isActive := true, expiresAt := none,
    createdAt := 5, updatedAt := 5 }

/-- The store after that creation. -/
def D6 : DB := { rows := [L6], nextId := 2 }

/-- An active link expiring exactly at time 100. -/
def lE : Link :=
  { id := 7, shortCode := "exp123", originalUrl := "https://e.example",
    userId := "erin", title := none, clicks := 0, isActive := true,
    expiresAt := some 100, createdAt := 0, updatedAt := 0 }

/-- A store holding only `lE`. -/
def dbE : DB := { rows := [lE], nextId := 8 }

/-- A deactivated link. -/
def lD : Link :=
  { id := 3, shortCode := "off999", originalUrl := "https://d.example",
    userId := "dana", title := none, clicks := 4, isActive := false,
    expiresAt := none, createdAt := 0, updatedAt := 0 }

/-- A store holding only the deactivated link `lD`. -/
def dbD : DB := { rows := [lD], nextId := 4 }

/-- A schedule of three concurrent clicks on row 1. -/
def ops9 : List ClickOp := List.replicate 3 (.incr 1)

/-- An interfering actor that reassigns every row to `"bob"` — run between
`deleteLink`'s check and its mutation it models an ownership transfer in
the time-of-check/time-of-use window. -/
def fB : DB → DB := fun db =>
  { db with rows := db.rows.map (fun l => { l with userId := "bob" }) }

/-- The empty patch: every field left unchanged. -/
def pEmpty : LinkPatch :=
  { originalUrl := none, title := none, isActive := none,
    expiresAt := none }

/-! ### Helper lemmas -/

theorem validateUrl_empty : validateUrl "" = false := by decide

theorem beq_empty_false_of_validateUrl {url : String}
    (hv : validateUrl url = true) : (url == "") = false := by
  cases heq : url == "" with
  | false => rfl
  | true =>
    have h : url = "" := by simpa using heq
    rw [h, validateUrl_empty] at hv
    cases hv

/-- Anatomy of a successful `createLink`: the URL validated, the single
candidate `gen 0` was fresh, and the returned row and state are the
inserted ones. -/
theorem createLink_success (u url : String) (gen : Nat → String) (db : DB)
    (now : Nat) (link : Link) (db' : DB)
    (h : createLink (some u) url gen db now = (.success link, db')) :
    validateUrl url = true
    ∧ db.rows.any (fun l => l.shortCode == gen 0) = false
    ∧ link = { id := db.nextId, shortCode := gen 0, originalUrl := url,
               userId := u, title := none, clicks := 0, isActive := true,
               expiresAt := none, createdAt := now, updatedAt := now }
    ∧ db' = { rows := link :: db.rows, nextId := db.nextId + 1 } := by
  simp only [createLink] at h
  by_cases hcond : (url == "" || !validateUrl url) = true
  · rw [if_pos hcond] at h
    simp at h
  · rw [if_neg hcond] at h
    have hv : validateUrl url = true := by
      cases hval : validateUrl url with
      | true => rfl
      | false => exact absurd (by simp [hval]) hcond
    cases hins : insertLink db (gen 0) url u now with
    | error e =>
      rw [hins] at h
      cases e
      simp at h
    | ok v =>
      rw [hins] at h
      obtain ⟨nl, ndb⟩ := v
      simp only [Prod.mk.injEq, Result.success.injEq] at h
      obtain ⟨hl, hdb⟩ := h
      unfold insertLink at hins
      by_cases hconf : db.rows.any (fun l => l.shortCode == gen 0) = true
      · rw [if_pos hconf] at hins
        cases hins
      · rw [if_neg hconf] at hins
        simp only [Except.ok.injEq, Prod.mk.injEq] at hins
        obtain ⟨hnl, hndb⟩ := hins
        subst hl hdb hnl hndb
        refine ⟨hv, by simpa using hconf, rfl, rfl⟩

/-! ### Claim theorems -/

/-- C10: when `createLink` is invoked without an authenticated caller it
returns the failure `"Unauthorized"` and inserts no record, whatever the
URL — the URL is not even validated. -/
theorem c10_unauthenticated (url : String) (gen : Nat → String) (db : DB)
    (now : Nat) :
    createLink none url gen db now = (Result.failure "Unauthorized", db) :=
  rfl

/-- C1 counterexample: in `db1` the first generated candidate `gen1 0`
collides, the second candidate `gen1 1` is fresh, and the attempt count 1
is within the claimed bound of 5 — yet the caller sees the failure, so a
Conflict resolved within the bound IS visible to the caller: `createLink`
does not retry. -/
theorem c1_counterexample :
    (db1.rows.any (fun l => l.shortCode == gen1 0)) = true
    ∧ (db1.rows.all (fun l => !(l.shortCode == gen1 1))) = true
    ∧ 1 ≤ 5
    ∧ (createLink (some "alice") "https://example.com/page" gen1 db1 0).1 =
        Result.failure "Failed to create link" := by
  exact ⟨by decide, by decide, by decide, by decide⟩

/-- C1 amended: on an insert Conflict `createLink` does not retry — it
consults only the first generated candidate and immediately surfaces a
failure to the caller (`"Failed to create link"` from the server action,
`"Short code already exists"` from the Result-returning variant), leaving
the store unchanged; there is no retry bound and no ExhaustedRetries. -/
theorem c1_no_retry (u url : String) (gen : Nat → String) (db : DB)
    (now : Nat) (hval : validateUrl url = true)
    (hconf : db.rows.any (fun l => l.shortCode == gen 0) = true) :
    createLink (some u) url gen db now =
      (Result.failure "Failed to create link", db)
    ∧ createLinkR url u gen db now =
      (Result.failure "Short code already exists", db)
    ∧ ∀ gen' : Nat → String, gen' 0 = gen 0 →
        createLink (some u) url gen' db now =
          createLink (some u) url gen db now := by
  have hins : insertLink db (gen 0) url u now = .error .Conflict := by
    unfold insertLink
    rw [if_pos hconf]
  have hne := beq_empty_false_of_validateUrl hval
  refine ⟨?_, ?_, ?_⟩
  · simp only [createLink, hne, hval, hins]
    rfl
  · have hins' : insertLink db (gen 0) url u now = .error .Conflict := hins
    simp only [createLinkR, hval, hins']
    rfl
  · intro gen' hg
    simp only [createLink, hg]

/-- C1 witness: the amended behaviour at the concrete colliding state. -/
theorem c1_witness :
    createLink (some "alice") "https://example.com/page" gen1 db1 0 =
      (Result.failure "Failed to create link", db1)
    ∧ createLinkR "https://example.com/page" "alice" gen1 db1 0 =
      (Result.failure "Short code already exists", db1) := by
  have h := c1_no_retry "alice" "https://example.com/page" gen1 db1 0
    (by decide) (by decide)
  exact ⟨h.1, h.2.1⟩

/-- C7 counterexample: on `db1`, `deleteLink` issues two storage
operations — an owner-scoped select and then a delete filtered by id
alone — not one single conditional operation. -/
theorem c7_counterexample :
    deleteLinkOps db1 1 "alice" =
      [.select 1 (some "alice"), .delete 1 none]
    ∧ (deleteLinkOps db1 1 "alice").length ≠ 1 := by
  exact ⟨by decide, by decide⟩

/-- C7 amended: `deleteLink` performs the existence-and-ownership check as
a separate first storage operation and, when it succeeds, a second delete
filtered by id only; between the two operations the state can be observed
and changed, and the delete then applies to the changed state regardless
of its current owner. -/
theorem c7_check_then_act (db : DB) (linkId : Nat) (u : String)
    (f : DB → DB)
    (hown : db.rows.any (fun l => l.id == linkId && l.userId == u) = true) :
    deleteLinkOps db linkId u =
      [.select linkId (some u), .delete linkId none]
    ∧ (deleteLinkInterleaved db linkId u f).2.rows =
        (f db).rows.filter (fun l => !(l.id == linkId))
    ∧ deleteLinkInterleaved db linkId u (fun x => x) =
        deleteLink db linkId u := by
  refine ⟨?_, ?_, ?_⟩
  · simp only [deleteLinkOps, hown]
    rfl
  · simp only [deleteLinkInterleaved, hown]
    rfl
  · simp only [deleteLinkInterleaved, deleteLink]

/-- C7 witness: with an ownership transfer to `"bob"` interleaved between
check and mutation, the record now owned by `"bob"` is still deleted. -/
theorem c7_witness :
    (deleteLinkInterleaved db1 1 "alice" fB).2.rows =
      (fB db1).rows.filter (fun l => !(l.id == 1)) :=
  (c7_check_then_act db1 1 "alice" fB (by decide)).2.1

/-- C4: when every row with the given id belongs to someone other than the
caller, `updateByOwner` fails with `NotFoundOrUnauthorized`, `deleteLink`
reports its not-found-or-unauthorized failure, and both leave the store —
hence every field of every record — unchanged. -/
theorem c4_ownership_isolation (db : DB) (linkId : Nat) (caller : String)
    (p : LinkPatch) (now : Nat)
    (h : ∀ l ∈ db.rows, l.id = linkId → l.userId ≠ caller) :
    updateByOwner db linkId caller p now =
      (Except.error "NotFoundOrUnauthorized", db)
    ∧ deleteLink db linkId caller =
      (Except.error "Link not found or unauthorized", db) := by
  have hnone :
      db.rows.find? (fun l => l.id == linkId && l.userId == caller) =
        none := by
    rw [List.find?_eq_none]
    intro l hl
    simp only [Bool.and_eq_true, beq_iff_eq, not_and]
    intro h1 h2
    exact h l hl h1 h2
  have hany :
      db.rows.any (fun l => l.id == linkId && l.userId == caller) =
        false := by
    rw [List.any_eq_false]
    intro l hl
    simp only [Bool.and_eq_true, beq_iff_eq, not_and]
    intro h1 h2
    exact h l hl h1 h2
  constructor
  · simp only [updateByOwner, hnone]
  · simp only [deleteLink, hany]
    rfl

/-- C4 witness: the non-owner `"bob"` can neither update nor delete
`"alice"`'s link, and `db1` is unchanged. -/
theorem c4_witness :
    updateByOwner db1 1 "bob" pEmpty 77 =
      (Except.error "NotFoundOrUnauthorized", db1)
    ∧ deleteLink db1 1 "bob" =
      (Except.error "Link not found or unauthorized", db1) :=
  c4_ownership_isolation db1 1 "bob" pEmpty 77 (by decide)

/-- C3: `resolve` yields `notFound` when no record carries the code;
`deactivated` (a distinct outcome) when the found record has `isActive`
false; `expired` when the record is active with `expiresAt <= now` — the
boundary is inclusive — and the record's `originalUrl` when it is active
and unexpired. -/
theorem c3_resolution (db : DB) (code : String) (now : Nat) :
    ((∀ l ∈ db.rows, l.shortCode ≠ code) →
      (resolve db code now).1 = ResolveResult.notFound)
    ∧ ∀ l, db.rows.find? (fun r => r.shortCode == code) = some l →
        ((l.isActive = false →
            (resolve db code now).1 = ResolveResult.deactivated)
        ∧ (l.isActive = true → ∀ t, l.expiresAt = some t → t ≤ now →
            (resolve db code now).1 = ResolveResult.expired)
        ∧ (l.isActive = true →
            (l.expiresAt = none ∨ ∃ t, l.expiresAt = some t ∧ now < t) →
            (resolve db code now).1 =
              ResolveResult.destination l.originalUrl)) := by
  constructor
  · intro hnone
    have hfind : db.rows.find? (fun r => r.shortCode == code) = none := by
      rw [List.find?_eq_none]
      intro l hl
      simp only [beq_iff_eq]
      exact hnone l hl
    simp only [resolve, hfind]
  · intro l hfind
    refine ⟨?_, ?_, ?_⟩
    · intro hact
      simp only [resolve, hfind, hact]
      rfl
    · intro hact t hexp hle
      simp only [resolve, hfind, hact, hexp, hle]
      simp [hle]
    · intro hact hcase
      rcases hcase with hnone | ⟨t, hexp, hlt⟩
      · simp only [resolve, hfind, hact, hnone]
        rfl
      · simp only [resolve, hfind, hact, hexp]
        rw [if_neg (Nat.not_le.mpr hlt)]
        simp

/-- C3 witness: a link whose `expiresAt` equals "now" exactly resolves to
`expired` — the boundary is inclusive. -/
theorem c3_witness : (resolve dbE "exp123" 100).1 = ResolveResult.expired :=
  ((c3_resolution dbE "exp123" 100).2 lE (by decide)).2.1 rfl 100 rfl
    (Nat.le_refl 100)

/-- C6: a record returned by a successful `createLink` (run with the
generated candidate codes) resolves, on the resulting state and at any
time, to the URL that was submitted. -/
theorem c6_roundtrip (u url : String) (rand : Nat → Nat → Nat) (db : DB)
    (now : Nat) (link : Link) (db' : DB)
    (h : createLinkGen (some u) url rand db now = (.success link, db')) :
    ∀ now', (resolve db' link.shortCode now').1 =
      ResolveResult.destination url := by
  intro now'
  obtain ⟨-, -, hlink, hdb⟩ :=
    createLink_success u url _ db now link db' h
  have hfind :
      db'.rows.find? (fun r => r.shortCode == link.shortCode) =
        some link := by
    rw [hdb]
    exact List.find?_cons_of_pos _ (by simp)
  have hact : link.isActive = true := by rw [hlink]
  have hexp : link.expiresAt = none := by rw [hlink]
  have hurl : link.originalUrl = url := by rw [hlink]
  simp only [resolve, hfind, hact, hexp, hurl]
  rfl

/-- C6 witness: creating `https://example.com/page` in the empty store and
resolving the returned code yields the same URL. -/
theorem c6_witness :
    (resolve D6 L6.shortCode 9).1 =
      ResolveResult.destination "https://example.com/page" :=
  c6_roundtrip "alice" "https://example.com/page" rand0 db0 5 L6 D6
    (by decide) 9

theorem alphaChars_length : alphaChars.length = 62 := by decide

theorem alphaChars_alphanum : ∀ c ∈ alphaChars, c.isAlphanum = true := by
  decide

theorem alphaChars_getD_mem (n : Nat) :
    alphaChars.getD n 'A' ∈ alphaChars := by
  by_cases h : n < alphaChars.length
  · rw [List.getD_eq_getElem?_getD, List.getElem?_eq_getElem h]
    simp only [Option.getD_some]
    exact List.getElem_mem h
  · rw [List.getD_eq_getElem?_getD, List.getElem?_eq_none
      (Nat.le_of_not_lt h)]
    decide

theorem generate_length (len : Nat) (rand : Nat → Nat) :
    (generate len rand).length = len := by
  unfold generate
  simp [String.length]

theorem generate_mem (len : Nat) (rand : Nat → Nat) (c : Char)
    (hc : c ∈ (generate len rand).toList) : c ∈ alphaChars := by
  unfold generate at hc
  simp only [String.toList, List.mem_map] at hc
  obtain ⟨i, -, hEq⟩ := hc
  rw [← hEq]
  exact alphaChars_getD_mem (rand i % 62)

theorem generate_valid (rand : Nat → Nat) :
    isValidShortCode (generate DEFAULT_SHORT_CODE_LENGTH rand) = true := by
  unfold isValidShortCode
  rw [generate_length]
  simp only [DEFAULT_SHORT_CODE_LENGTH, Bool.and_eq_true,
    decide_eq_true_eq]
  refine ⟨⟨by omega, by omega⟩, ?_⟩
  rw [List.all_eq_true]
  intro c hc
  have h := alphaChars_alphanum c
    (generate_mem DEFAULT_SHORT_CODE_LENGTH rand c hc)
  simp [h]

/-- C8: `generate` produces a code of the configured length from the fixed
62-character alphabet of mixed-case letters and digits; the configured
default is `DEFAULT_SHORT_CODE_LENGTH = 6`, and a successful creation at
that default stores a record whose `shortCode` has exactly 6 characters. -/
theorem c8_code_generator :
    (∀ len rand, (generate len rand).length = len)
    ∧ (∀ len rand c, c ∈ (generate len rand).toList → c ∈ alphaChars)
    ∧ alphaChars.length = 62
    ∧ ('A' ∈ alphaChars ∧ 'a' ∈ alphaChars ∧ '0' ∈ alphaChars)
    ∧ (∀ c ∈ alphaChars, c.isAlphanum = true)
    ∧ DEFAULT_SHORT_CODE_LENGTH = 6
    ∧ ∀ u url rand db now link db',
        createLinkGen (some u) url rand db now = (.success link, db') →
        link.shortCode.length = 6 := by
  refine ⟨generate_length, generate_mem, by decide, by decide,
    alphaChars_alphanum, rfl, ?_⟩
  intro u url rand db now link db' h
  obtain ⟨-, -, hlink, -⟩ := createLink_success u url _ db now link db' h
  rw [hlink]
  exact generate_length DEFAULT_SHORT_CODE_LENGTH (rand 0)

/-- C8 witness: the concrete creation in the empty store yields a
6-character code. -/
theorem c8_witness : L6.shortCode.length = 6 :=
  c8_code_generator.2.2.2.2.2.2 "alice" "https://example.com/page" rand0
    db0 5 L6 D6 (by decide)

theorem find?_map_upd (rows : List Link) (i j : Nat) :
    (rows.map (fun l =>
        if l.id == j then { l with clicks := l.clicks + 1 } else l)).find?
      (fun l => l.id == i) =
    (rows.find? (fun l => l.id == i)).map (fun l =>
        if l.id == j then { l with clicks := l.clicks + 1 } else l) := by
  induction rows with
  | nil => rfl
  | cons l ls ih =>
    have hid : ((if l.id == j then { l with clicks := l.clicks + 1 }
        else l : Link).id == i) = (l.id == i) := by
      by_cases hj : (l.id == j) = true <;> simp [hj]
    by_cases h : (l.id == i) = true
    · simp only [List.map_cons, List.find?_cons, hid, h]
      rfl
    · have h' : (l.id == i) = false := by simpa using h
      simp only [List.map_cons, List.find?_cons, hid, h']
      exact ih

theorem any_id_incrementClicks (db : DB) (i j : Nat) :
    (incrementClicks db j).rows.any (fun l => l.id == i) =
      db.rows.any (fun l => l.id == i) := by
  simp only [incrementClicks]
  rw [List.any_map]
  congr 1
  funext l
  by_cases hj : (l.id == j) = true <;> simp [Function.comp, hj]

theorem clicksOf_incrementClicks_self (db : DB) (i : Nat)
    (h : db.rows.any (fun l => l.id == i) = true) :
    clicksOf (incrementClicks db i) i = clicksOf db i + 1 := by
  have hsome : (db.rows.find? (fun l => l.id == i)).isSome := by
    rw [List.find?_isSome]
    simpa using h
  cases hf : db.rows.find? (fun l => l.id == i) with
  | none => rw [hf] at hsome; cases hsome
  | some l =>
    have hp : l.id = i := by
      have h1 := List.find?_some hf
      simpa using h1
    simp only [clicksOf, incrementClicks, find?_map_upd, hf,
      Option.map_some']
    simp [hp]

theorem clicksOf_incrementClicks_ne (db : DB) (i j : Nat) (hji : j ≠ i) :
    clicksOf (incrementClicks db j) i = clicksOf db i := by
  cases hf : db.rows.find? (fun l => l.id == i) with
  | none =>
    simp only [clicksOf, incrementClicks, find?_map_upd, hf,
      Option.map_none']
  | some l =>
    have hp : l.id = i := by
      have h1 := List.find?_some hf
      simpa using h1
    have hpj : (l.id == j) = false := by
      simp [hp]
      omega
    simp only [clicksOf, incrementClicks, find?_map_upd, hf,
      Option.map_some']
    simp [hpj]

theorem clicks_schedule (ops : List ClickOp) : ∀ (db : DB) (i : Nat),
    db.rows.any (fun l => l.id == i) = true →
    clicksOf (applyOps db ops) i =
      clicksOf db i + ops.countP (fun op => op == ClickOp.incr i) := by
  induction ops with
  | nil =>
    intro db i h
    simp [applyOps]
  | cons op ops ih =>
    intro db i h
    obtain ⟨j⟩ := op
    have happly : applyOps db (ClickOp.incr j :: ops) =
        applyOps (incrementClicks db j) ops := rfl
    rw [happly, ih (incrementClicks db j) i
      (by rw [any_id_incrementClicks]; exact h), List.countP_cons]
    by_cases hji : j = i
    · subst hji
      rw [clicksOf_incrementClicks_self db j h]
      simp only [beq_self_eq_true, if_pos]
      omega
    · rw [clicksOf_incrementClicks_ne db i j hji]
      have hne : (ClickOp.incr j == ClickOp.incr i) = false := by
        simp [hji]
      rw [hne]
      simp

theorem countP_incr_replicate (K i : Nat) :
    (List.replicate K (ClickOp.incr i)).countP
      (fun op => op == ClickOp.incr i) = K := by
  induction K with
  | zero => rfl
  | succ k ih =>
    rw [List.replicate_succ, List.countP_cons]
    simp [ih]

/-- C9: click accounting is lost-update-free.  Every schedule of atomic
storage increments credits the link with exactly the number of increment
operations aimed at it — K concurrent resolves contribute K operations and
the count rises by exactly K — while a resolve that fails with
`deactivated` leaves the store, hence the count, unchanged; a successful
resolve performs exactly one atomic increment. -/
theorem c9_click_accounting :
    (∀ (db : DB) (i : Nat) (ops : List ClickOp),
        db.rows.any (fun l => l.id == i) = true →
        clicksOf (applyOps db ops) i =
          clicksOf db i + ops.countP (fun op => op == ClickOp.incr i))
    ∧ (∀ (db : DB) (i K : Nat),
        db.rows.any (fun l => l.id == i) = true →
        clicksOf (applyOps db (List.replicate K (ClickOp.incr i))) i =
          clicksOf db i + K)
    ∧ (∀ (db : DB) (code : String) (now : Nat) (l : Link),
        db.rows.find? (fun r => r.shortCode == code) = some l →
        l.isActive = false →
        resolve db code now = (ResolveResult.deactivated, db))
    ∧ (∀ (db : DB) (code : String) (now : Nat) (l : Link),
        db.rows.find? (fun r => r.shortCode == code) = some l →
        l.isActive = true →
        (l.expiresAt = none ∨ ∃ t, l.expiresAt = some t ∧ now < t) →
        resolve db code now =
          (ResolveResult.destination l.originalUrl,
           incrementClicks db l.id)) := by
  refine ⟨?_, ?_, ?_, ?_⟩
  · intro db i ops h
    exact clicks_schedule ops db i h
  · intro db i K h
    rw [clicks_schedule (List.replicate K (ClickOp.incr i)) db i h,
      countP_incr_replicate]
  · intro db code now l hfind hact
    simp only [resolve, hfind, hact]
    rfl
  · intro db code now l hfind hact hcase
    rcases hcase with hexp | ⟨t, hexp, hlt⟩
    · simp only [resolve, hfind, hact, hexp]
      rfl
    · simp only [resolve, hfind, hact, hexp]
      rw [if_neg (Nat.not_le.mpr hlt)]
      rfl

/-- C9 witness: three scheduled increments on `db1`'s link raise its count
by exactly three, and resolving an active link with a still-future expiry
performs exactly one atomic increment. -/
theorem c9_witness :
    clicksOf (applyOps db1 ops9) 1 = clicksOf db1 1 + 3
    ∧ resolve dbE "exp123" 50 =
        (ResolveResult.destination "https://e.example",
         incrementClicks dbE 7) :=
  ⟨c9_click_accounting.2.1 db1 1 3 (by decide),
   c9_click_accounting.2.2.2 dbE "exp123" 50 lE (by decide) rfl
     (Or.inr ⟨100, rfl, by decide⟩)⟩

theorem codes_eq_idCodes (db : DB) :
    codes db = (idCodes db).map Prod.snd := by
  simp [codes, idCodes, List.map_map, Function.comp]

theorem codes_of_idCodes_eq (db db' : DB)
    (h : idCodes db' = idCodes db) : codes db' = codes db := by
  rw [codes_eq_idCodes, codes_eq_idCodes, h]

theorem codes_sublist_of_idCodes (db db' : DB)
    (h : (idCodes db').Sublist (idCodes db)) :
    (codes db').Sublist (codes db) := by
  rw [codes_eq_idCodes, codes_eq_idCodes]
  exact h.map _

theorem DBInv_of_codes_eq (db db' : DB) (h : codes db' = codes db)
    (hInv : DBInv db) : DBInv db' := by
  unfold DBInv at hInv ⊢
  rw [h]
  exact hInv

theorem DBInv_of_codes_sublist (db db' : DB)
    (h : (codes db').Sublist (codes db)) (hInv : DBInv db) : DBInv db' :=
  ⟨fun c hc => hInv.1 c (h.subset hc), hInv.2.sublist h⟩

theorem idCodes_incrementClicks (db : DB) (i : Nat) :
    idCodes (incrementClicks db i) = idCodes db := by
  simp only [idCodes, incrementClicks, List.map_map]
  congr 1
  funext l
  by_cases h : (l.id == i) = true <;> simp [Function.comp, h]

theorem idCodes_updateByOwner (db : DB) (linkId : Nat) (owner : String)
    (p : LinkPatch) (now : Nat) :
    idCodes (updateByOwner db linkId owner p now).2 = idCodes db := by
  cases hf : db.rows.find? (fun l => l.id == linkId && l.userId == owner)
    with
  | none => simp only [updateByOwner, hf]
  | some l =>
    simp only [updateByOwner, hf, idCodes, List.map_map]
    congr 1
    funext r
    by_cases h : (r.id == linkId && r.userId == owner) = true <;>
      simp [Function.comp, h, applyPatch]

theorem idCodes_resolve (db : DB) (code : String) (now : Nat) :
    idCodes (resolve db code now).2 = idCodes db := by
  cases hf : db.rows.find? (fun l => l.shortCode == code) with
  | none => simp only [resolve, hf]
  | some l =>
    by_cases hact : (!l.isActive) = true
    · simp [resolve, hf, hact]
    · cases hexp : l.expiresAt with
      | none => simp [resolve, hf, hact, hexp, idCodes_incrementClicks]
      | some t =>
        by_cases hle : t ≤ now
        · simp [resolve, hf, hact, hexp, hle]
        · simp [resolve, hf, hact, hexp, hle, idCodes_incrementClicks]

theorem idCodes_deleteLink_sublist (db : DB) (linkId : Nat) (u : String) :
    (idCodes (deleteLink db linkId u).2).Sublist (idCodes db) := by
  unfold deleteLink
  by_cases h :
      db.rows.any (fun l => l.id == linkId && l.userId == u) = true
  · rw [if_pos h]
    simp only [idCodes]
    exact List.Sublist.map _ (List.filter_sublist _)
  · rw [if_neg h]

theorem not_mem_codes_of_any_false (db : DB) (code : String)
    (h : db.rows.any (fun l => l.shortCode == code) = false) :
    code ∉ codes db := by
  intro hmem
  rw [List.any_eq_false] at h
  obtain ⟨l, hl, heq⟩ := List.mem_map.mp hmem
  exact h l hl (by simp [heq])

theorem DBInv_createLink (auth : Option String) (url : String)
    (gen : Nat → String) (db : DB) (now : Nat) (hInv : DBInv db)
    (hgen : isValidShortCode (gen 0) = true) :
    DBInv (createLink auth url gen db now).2 := by
  cases auth with
  | none => exact hInv
  | some u =>
    simp only [createLink]
    by_cases hcond : (url == "" || !validateUrl url) = true
    · rw [if_pos hcond]
      exact hInv
    · rw [if_neg hcond]
      cases hins : insertLink db (gen 0) url u now with
      | error e =>
        cases e
        exact hInv
      | ok v =>
        obtain ⟨nl, ndb⟩ := v
        show DBInv ndb
        unfold insertLink at hins
        by_cases hconf :
            db.rows.any (fun l => l.shortCode == gen 0) = true
        · rw [if_pos hconf] at hins
          cases hins
        · rw [if_neg hconf] at hins
          simp only [Except.ok.injEq, Prod.mk.injEq] at hins
          obtain ⟨-, hndb⟩ := hins
          have hcodes : codes ndb = gen 0 :: codes db := by
            rw [← hndb]
            rfl
          constructor
          · intro c hc
            rw [hcodes] at hc
            rcases List.mem_cons.mp hc with h1 | h1
            · rw [h1]
              exact hgen
            · exact hInv.1 c h1
          · rw [hcodes]
            exact List.nodup_cons.mpr
              ⟨not_mem_codes_of_any_false db (gen 0)
                (by simpa using hconf), hInv.2⟩

/-- C5: on any store satisfying the shortCode invariant — every stored
code matches `isValidShortCode` (4-10 characters over `[A-Za-z0-9_-]`) and
codes are pairwise distinct — every engine operation preserves it; a
successful creation stores a valid code that was absent at the moment of
creation, and clicking, updating and resolving never change any row's
id-to-shortCode assignment (immutability), while deletion only removes
assignments. -/
theorem c5_shortcode_invariant (db : DB) (hInv : DBInv db) :
    (∀ (auth : Option String) (url : String) (rand : Nat → Nat → Nat)
        (now : Nat),
        DBInv (createLinkGen auth url rand db now).2
        ∧ ∀ link db',
            createLinkGen auth url rand db now =
              (Result.success link, db') →
            isValidShortCode link.shortCode = true
            ∧ link.shortCode ∉ codes db)
    ∧ (∀ i, DBInv (incrementClicks db i)
        ∧ idCodes (incrementClicks db i) = idCodes db)
    ∧ (∀ linkId owner p now,
        DBInv (updateByOwner db linkId owner p now).2
        ∧ idCodes (updateByOwner db linkId owner p now).2 = idCodes db)
    ∧ (∀ linkId owner,
        DBInv (deleteLink db linkId owner).2
        ∧ (idCodes (deleteLink db linkId owner).2).Sublist (idCodes db))
    ∧ (∀ code now,
        DBInv (resolve db code now).2
        ∧ idCodes (resolve db code now).2 = idCodes db) := by
  refine ⟨?_, ?_, ?_, ?_, ?_⟩
  · intro auth url rand now
    constructor
    · exact DBInv_createLink auth url _ db now hInv (generate_valid _)
    · intro link db' h
      cases auth with
      | none => simp [createLinkGen, createLink] at h
      | some u =>
        obtain ⟨-, hfresh, hlink, -⟩ :=
          createLink_success u url _ db now link db' h
        constructor
        · rw [hlink]
          exact generate_valid _
        · rw [hlink]
          exact not_mem_codes_of_any_false db _ hfresh
  · intro i
    refine ⟨?_, idCodes_incrementClicks db i⟩
    exact DBInv_of_codes_eq db (incrementClicks db i)
      (codes_of_idCodes_eq db _ (idCodes_incrementClicks db i)) hInv
  · intro linkId owner p now
    refine ⟨?_, idCodes_updateByOwner db linkId owner p now⟩
    exact DBInv_of_codes_eq db _
      (codes_of_idCodes_eq db _
        (idCodes_updateByOwner db linkId owner p now)) hInv
  · intro linkId owner
    refine ⟨?_, idCodes_deleteLink_sublist db linkId owner⟩
    exact DBInv_of_codes_sublist db _
      (codes_sublist_of_idCodes db _
        (idCodes_deleteLink_sublist db linkId owner)) hInv
  · intro code now
    refine ⟨?_, idCodes_resolve db code now⟩
    exact DBInv_of_codes_eq db _
      (codes_of_idCodes_eq db _ (idCodes_resolve db code now)) hInv

/-- C5 witness: the invariant holds on `db1` and is concretely preserved
by a click increment, which also fixes the id-to-code assignment. -/
theorem c5_witness :
    DBInv (incrementClicks db1 1)
    ∧ idCodes (incrementClicks db1 1) = idCodes db1 :=
  (c5_shortcode_invariant db1 (by decide)).2.1 1
